/-
Verification of the RepoRig profile reconciliation engine
(src/profileManager.ts) against its natural-language specification.

The TypeScript source is shallowly embedded: the mutable `ProfileManager`
state (the loaded `ProfileStorage` document and the external git-config
backend) is passed explicitly, `async` methods that only await child
processes become pure functions over an explicit backend value, and
JavaScript strings/arrays/Maps are modelled by Lean `String`/`List` with
the JS operations (split, trim, includes, Map insertion with last-write-wins)
reimplemented as structural recursions so that every definition evaluates
in the kernel.
-/
import Mathlib

namespace RepoRig

/-! ## JavaScript string primitives (structural models) -/

/-- Accumulator version of single-character `String.prototype.split`. -/
def splitAux (sep : Char) : List Char → List Char → List String
  | [], acc => [String.mk acc.reverse]
  | c :: rest, acc =>
    if c = sep then String.mk acc.reverse :: splitAux sep rest []
    else splitAux sep rest (c :: acc)

/-- Models JS `s.split(sep)` for a one-character separator
(`line.split('=')`, `stdout.split('\n')` in `profileManager.ts`). -/
def jsSplit (sep : Char) (s : String) : List String :=
  splitAux sep s.data []

/-- Models JS `s.trim()`: strip leading and trailing whitespace. -/
def jsTrim (s : String) : String :=
  String.mk (((s.data.dropWhile Char.isWhitespace).reverse.dropWhile Char.isWhitespace).reverse)

/-- Models JS `s.includes(c)` for a one-character needle. -/
def jsIncludesChar (s : String) (c : Char) : Bool :=
  s.data.contains c

/-- Models JS `parts.join(sep)` for a one-character separator. -/
def jsJoin (sep : Char) : List String → String
  | [] => ""
  | [x] => x
  | x :: y :: rest => x ++ String.mk [sep] ++ jsJoin sep (y :: rest)

/-- Models JS `parts.join('\n')` used when aggregating apply errors. -/
def joinLines (parts : List String) : String :=
  jsJoin '\n' parts

/-- Decides whether `pat` occurs at the start of `l`. -/
def startsWithChars : List Char → List Char → Bool
  | [], _ => true
  | _ :: _, [] => false
  | a :: as_, b :: bs => a = b && startsWithChars as_ bs

/-- Decides whether `pat` occurs contiguously inside `l`. -/
def hasInfixChars (pat : List Char) : List Char → Bool
  | [] => startsWithChars pat []
  | b :: bs => startsWithChars pat (b :: bs) || hasInfixChars pat bs

/-- Models JS `s.includes(pat)` for a string needle (icon tag matching). -/
def hasSubstr (s pat : String) : Bool :=
  hasInfixChars pat.data s.data

/-- Models `Char.toLowerCase` for ASCII, as used by JS `toLowerCase`. -/
def lowerChar (c : Char) : Char :=
  if 'A' ≤ c ∧ c ≤ 'Z' then Char.ofNat (c.toNat + 32) else c

/-- Models JS `s.toLowerCase()` (ASCII fragment). -/
def lowerStr (s : String) : String :=
  String.mk (s.data.map lowerChar)

/-! ## Data model (interfaces of profileManager.ts) -/

/-- The two git-config scopes of `GitConfigItem.scope` (`'local' | 'global'`). -/
inductive GitScope where
  | localScope
  | globalScope
deriving DecidableEq, Repr

/-- String form of a scope, as interpolated into the composite map key. -/
def GitScope.str : GitScope → String
  | .localScope => "local"
  | .globalScope => "global"

/-- Embeds `interface GitConfigItem { key; value; scope }`. -/
structure GitConfigItem where
  key : String
  value : String
  scope : GitScope
deriving DecidableEq, Repr

/-- Embeds `interface ConfigProfile`; optional TS fields become `Option`. -/
structure ConfigProfile where
  id : String
  name : String
  description : String
  configs : List GitConfigItem
  created : String
  modified : String
  tags : Option (List String) := none
  icon : Option String := none
deriving DecidableEq, Repr

/-- Embeds `interface ProfileStorage { profiles; activeProfile?; lastModified }`. -/
structure ProfileStorage where
  profiles : List ConfigProfile
  activeProfile : Option String := none
  lastModified : String
deriving DecidableEq, Repr

/-- One element of `ProfileComparison.toUpdate`. -/
structure UpdateEntry where
  key : String
  scope : GitScope
  oldValue : String
  newValue : String
deriving DecidableEq, Repr

/-- Embeds `interface ProfileComparison { toAdd; toUpdate; toRemove }`. -/
structure ProfileComparison where
  toAdd : List GitConfigItem
  toUpdate : List UpdateEntry
  toRemove : List GitConfigItem
deriving DecidableEq, Repr

/-! ## JS truthiness on optional strings -/

/-- JS truthiness of `string | undefined`: `undefined` and `""` are falsy. -/
def truthyOpt : Option String → Bool
  | none => false
  | some s => s ≠ ""

/-- Models JS `a || b` on `string | undefined` values
(`workspaceRoot || this.getWorkspaceRoot()`). -/
def jsOrStr (a b : Option String) : Option String :=
  match a with
  | some s => if s ≠ "" then some s else b
  | none => b

/-! ## The composite-key Map (JS `Map` built from an entry list) -/

/-- The composite identity string `` `${c.key}:${c.scope}` `` used by the
comparison engine. -/
def compositeKey (c : GitConfigItem) : String :=
  c.key ++ ":" ++ c.scope.str

/-- Lookup in a JS `Map` built by inserting the listed entries in order:
a later entry for the same key overwrites an earlier one. -/
def mapGet (m : List (String × String)) (k : String) : Option String :=
  m.foldl (fun acc p => if p.1 = k then some p.2 else acc) none

/-- Models JS `map.has(k)`. -/
def mapHas (m : List (String × String)) (k : String) : Bool :=
  (mapGet m k).isSome

/-- The entry list `configs.map(c => [`${c.key}:${c.scope}`, c.value])` that
`compareProfileWithCurrent` feeds to `new Map(...)`. -/
def configMap (l : List GitConfigItem) : List (String × String) :=
  l.map (fun c => (compositeKey c, c.value))

/-! ## Snapshot capture: getCurrentConfigs -/

/-- One iteration of the `stdout.split('\n').forEach(...)` parsing loop in
`getCurrentConfigs`: skip blank lines and lines without `=`; otherwise split
on `=`, rejoin the tail, and trim key and value. -/
def parseConfigLine (scope : GitScope) (line : String) : Option GitConfigItem :=
  if jsTrim line ≠ "" ∧ jsIncludesChar line '=' then
    match jsSplit '=' line with
    | [] => none
    | key :: valueParts => some ⟨jsTrim key, jsTrim (jsJoin '=' valueParts), scope⟩
  else none

/-- Parses one `git config --list` stdout into scope-tagged items. -/
def parseConfigOutput (scope : GitScope) (out : String) : List GitConfigItem :=
  (jsSplit '\n' out).filterMap (parseConfigLine scope)

/-- The external git backend as observed by `getCurrentConfigs`: the stdout of
`git config --local --list` run at a given root, and of
`git config --global --list`; `none` models the command failing (which the
source swallows into zero items). -/
structure Backend where
  localList : String → Option String
  globalList : Option String

/-- Embeds `getCurrentConfigs(workspaceRoot?)`. `ambientRoot` models
`this.getWorkspaceRoot()`. Falsy resolved root returns `[]` before any
backend query; otherwise local items are parsed, then global items. -/
def getCurrentConfigs (wsRoot ambientRoot : Option String) (b : Backend) :
    List GitConfigItem :=
  match jsOrStr wsRoot ambientRoot with
  | none => []
  | some root =>
    if root = "" then []
    else
      (match b.localList root with
       | none => []
       | some out => parseConfigOutput .localScope out)
      ++ (match b.globalList with
       | none => []
       | some out => parseConfigOutput .globalScope out)

/-! ## CRUD: lookup and creation -/

/-- Embeds `getProfile(id)`: first profile in list order with that id. -/
def getProfile (storage : ProfileStorage) (id : String) : Option ConfigProfile :=
  storage.profiles.find? (fun p => p.id = id)

/-- Embeds `getIconForProfile(tags?)`: cosmetic icon from the first tag. -/
def getIconForProfile (tags : Option (List String)) : String :=
  match tags with
  | none => "symbol-misc"
  | some [] => "symbol-misc"
  | some (t :: _) =>
    let tagLower := lowerStr t
    if hasSubstr tagLower "work" ∨ hasSubstr tagLower "office" then "briefcase"
    else if hasSubstr tagLower "personal" ∨ hasSubstr tagLower "home" then "home"
    else if hasSubstr tagLower "opensource" ∨ hasSubstr tagLower "oss" then "github"
    else if hasSubstr tagLower "client" then "organization"
    else "symbol-misc"

/-- Embeds `createProfile(name, description, configs, tags?)`. `newId` models
the `generateId()` call and `now` the `new Date().toISOString()` stamps
(including the `lastModified` stamp done by `saveStorage`). -/
def createProfile (storage : ProfileStorage) (name description : String)
    (configs : List GitConfigItem) (tags : Option (List String))
    (newId now : String) : ProfileStorage × ConfigProfile :=
  let profile : ConfigProfile :=
    { id := newId, name := name, description := description, configs := configs,
      created := now, modified := now, tags := tags,
      icon := some (getIconForProfile tags) }
  ({ profiles := storage.profiles ++ [profile],
     activeProfile := storage.activeProfile,
     lastModified := now }, profile)

/-- Embeds `createProfileFromCurrent(name, description, tags?)`: snapshot the
backend via `getCurrentConfigs()` (no explicit root argument, so the ambient
root is used) and store it with `createProfile`. -/
def createProfileFromCurrent (storage : ProfileStorage) (name description : String)
    (tags : Option (List String)) (newId now : String)
    (ambientRoot : Option String) (b : Backend) : ProfileStorage × ConfigProfile :=
  createProfile storage name description (getCurrentConfigs none ambientRoot b)
    tags newId now

/-! ## Comparison engine -/

/-- The first loop of `compareProfileWithCurrent`: walk the profile's configs,
pushing to `toAdd` when the composite key is absent from `currentMap` and to
`toUpdate` when present with a different value. -/
def classifyProfileConfigs (cm : List (String × String)) :
    List GitConfigItem → List GitConfigItem × List UpdateEntry
  | [] => ([], [])
  | c :: rest =>
    let res := classifyProfileConfigs cm rest
    match mapGet cm (compositeKey c) with
    | none => (c :: res.1, res.2)
    | some currentValue =>
      if currentValue ≠ c.value then
        (res.1, ⟨c.key, c.scope, currentValue, c.value⟩ :: res.2)
      else res

/-- The second loop of `compareProfileWithCurrent`: current-state entries whose
composite key is not in `profileMap` go to `toRemove`. -/
def removeLoop (pm : List (String × String)) : List GitConfigItem → List GitConfigItem
  | [] => []
  | c :: rest =>
    if mapHas pm (compositeKey c) then removeLoop pm rest
    else c :: removeLoop pm rest

/-- Embeds the pure core of `compareProfileWithCurrent`, given the already
fetched current backend configs. -/
def compareProfileWithCurrent (profile : ConfigProfile)
    (currentConfigs : List GitConfigItem) : ProfileComparison :=
  let currentMap := configMap currentConfigs
  let profileMap := configMap profile.configs
  let au := classifyProfileConfigs currentMap profile.configs
  { toAdd := au.1, toUpdate := au.2, toRemove := removeLoop profileMap currentConfigs }

/-- Embeds `compareProfiles(profileId, workspaceRoot?)`: resolve the profile
(NotFound error if missing), fetch current state, and diff. -/
def compareProfiles (storage : ProfileStorage) (profileId : String)
    (wsRoot ambientRoot : Option String) (b : Backend) :
    Except String ProfileComparison :=
  match getProfile storage profileId with
  | none => .error ("Profile not found: " ++ profileId)
  | some profile =>
    .ok (compareProfileWithCurrent profile (getCurrentConfigs wsRoot ambientRoot b))

/-! ## CRUD: update and delete -/

/-- The argument of `updateProfile`: `Partial<Omit<ConfigProfile, 'id' | 'created'>>`.
Absent fields are `none`. `modified` is admitted by the TS type but always
overwritten by the method. -/
structure ProfileUpdates where
  name : Option String := none
  description : Option String := none
  configs : Option (List GitConfigItem) := none
  tags : Option (List String) := none
  icon : Option String := none
  modified : Option String := none
deriving DecidableEq, Repr

/-- The `Object.assign(profile, updates, { modified: now })` merge: each
supplied field replaces the stored one, then `modified` is stamped last.
`id` and `created` are excluded by the TS parameter type. -/
def applyUpdates (p : ConfigProfile) (u : ProfileUpdates) (now : String) :
    ConfigProfile :=
  { p with
    name := u.name.getD p.name
    description := u.description.getD p.description
    configs := u.configs.getD p.configs
    tags := match u.tags with | none => p.tags | some t => some t
    icon := match u.icon with | none => p.icon | some i => some i
    modified := now }

/-- Replaces the first profile whose id matches with the given record; models
`Object.assign` mutating the object returned by `find` in place. -/
def setFirst (id : String) (p' : ConfigProfile) :
    List ConfigProfile → List ConfigProfile
  | [] => []
  | p :: rest => if p.id = id then p' :: rest else p :: setFirst id p' rest

/-- Embeds `updateProfile(id, updates)`: NotFound if the id does not resolve;
otherwise merge, stamp `modified`, persist (stamping `lastModified`), and
return the updated record. -/
def updateProfile (storage : ProfileStorage) (id : String) (u : ProfileUpdates)
    (now : String) : Except String (ProfileStorage × ConfigProfile) :=
  match getProfile storage id with
  | none => .error ("Profile not found: " ++ id)
  | some p =>
    let p' := applyUpdates p u now
    .ok ({ profiles := setFirst id p' storage.profiles,
           activeProfile := storage.activeProfile,
           lastModified := now }, p')

/-- Removes the first profile with the given id, or `none` when absent; models
`findIndex` followed by `splice(index, 1)`. -/
def removeFirstById : List ConfigProfile → String → Option (List ConfigProfile)
  | [], _ => none
  | p :: rest, id =>
    if p.id = id then some rest
    else (removeFirstById rest id).map (fun l => p :: l)

/-- Embeds `deleteProfile(id)`: NotFound if the id does not resolve; otherwise
remove it, clear `activeProfile` when it pointed at the deleted id, persist. -/
def deleteProfile (storage : ProfileStorage) (id : String) (now : String) :
    Except String ProfileStorage :=
  match removeFirstById storage.profiles id with
  | none => .error ("Profile not found: " ++ id)
  | some profiles' =>
    .ok { profiles := profiles',
          activeProfile :=
            if storage.activeProfile = some id then none else storage.activeProfile,
          lastModified := now }

/-- Embeds `getActiveProfile()`: `undefined` when the pointer is falsy
(absent or the empty string), else look the id up. -/
def getActiveProfile (storage : ProfileStorage) : Option ConfigProfile :=
  match storage.activeProfile with
  | none => none
  | some aid => if aid = "" then none else getProfile storage aid

/-! ## Apply engine -/

/-- Abstract backend write state: the map of composite keys to values that the
`git config` store holds. A `set` overwrites the entry in place or appends. -/
def bset : List (String × String) → String → String → List (String × String)
  | [], k, v => [(k, v)]
  | (k', v') :: rest, k, v =>
    if k' = k then (k, v) :: rest else (k', v') :: bset rest k v

/-- The write loop of `applyProfile`: attempt `git config <scope> key value`
for every item. `failSet c = some e` models the awaited `execAsync` rejecting
with error `e` (caught and accumulated); `none` models a successful write. -/
def applyLoop (failSet : GitConfigItem → Option String) :
    List GitConfigItem → List (String × String) → List String →
    List (String × String) × List String
  | [], st, errs => (st, errs)
  | c :: rest, st, errs =>
    match failSet c with
    | some e =>
      applyLoop failSet rest st (errs ++ ["Failed to set " ++ c.key ++ ": " ++ e])
    | none => applyLoop failSet rest (bset st (compositeKey c) c.value) errs

/-- Embeds `applyProfile(id, workspaceRoot?)`. Returns the backend state after
all attempted writes (mutations persist even when the call then throws),
the possibly-updated storage, and the thrown error if any. -/
def applyProfile (storage : ProfileStorage) (id : String)
    (wsRoot ambientRoot : Option String) (failSet : GitConfigItem → Option String)
    (st : List (String × String)) (now : String) :
    List (String × String) × ProfileStorage × Except String Unit :=
  match getProfile storage id with
  | none => (st, storage, .error ("Profile not found: " ++ id))
  | some profile =>
    match jsOrStr wsRoot ambientRoot with
    | none => (st, storage, .error "No workspace folder found")
    | some root =>
      if root = "" then (st, storage, .error "No workspace folder found")
      else
        if (applyLoop failSet profile.configs st []).2 ≠ [] then
          ((applyLoop failSet profile.configs st []).1, storage,
           .error ("Some configurations failed:\n"
             ++ joinLines (applyLoop failSet profile.configs st []).2))
        else
          ((applyLoop failSet profile.configs st []).1,
           { profiles := storage.profiles, activeProfile := some id,
             lastModified := now },
           .ok ())

/-! ## Import (JSON payload model) -/

/-- JSON values, as produced by `JSON.parse`. -/
inductive JVal where
  | jnull
  | jbool (b : Bool)
  | jnum (n : Int)
  | jstr (s : String)
  | jarr (items : List JVal)
  | jobj (fields : List (String × JVal))

/-- Property lookup on an object's field list. -/
def getFieldList : List (String × JVal) → String → Option JVal
  | [], _ => none
  | (k', v) :: rest, k => if k' = k then some v else getFieldList rest k

/-- Models JS property access `v[k]`: `none` is `undefined` (also for access
on a non-object parse result). -/
def getField (v : JVal) (k : String) : Option JVal :=
  match v with
  | .jobj fields => getFieldList fields k
  | _ => none

/-- JS truthiness of a possibly-undefined JSON value. -/
def jsTruthyJ : Option JVal → Bool
  | none => false
  | some .jnull => false
  | some (.jbool b) => b
  | some (.jnum n) => n ≠ 0
  | some (.jstr s) => s ≠ ""
  | some (.jarr _) => true
  | some (.jobj _) => true

/-- Models `Array.isArray(v)` on a possibly-undefined value. -/
def isArrayJ : Option JVal → Bool
  | some (.jarr _) => true
  | _ => false

/-- Property assignment on an object's field list: overwrite in place or
append, as JS object spread override does. -/
def setFieldList : List (String × JVal) → String → JVal → List (String × JVal)
  | [], k, v => [(k, v)]
  | (k', v') :: rest, k, v =>
    if k' = k then (k, v) :: rest else (k', v') :: setFieldList rest k v

/-- Models the object-literal override `{ ...profile, k: v }` on an object. -/
def setField (v : JVal) (k : String) (val : JVal) : JVal :=
  match v with
  | .jobj fields => .jobj (setFieldList fields k val)
  | other => other

/-- Embeds `importProfile(jsonData)`. `parsed` is the outcome of
`JSON.parse(jsonData)` (error = malformed JSON). The stored profile list is
the JSON view of `storage.profiles`; failures return it unchanged. On
success the parsed object is appended with `id`, `created`, `modified`
overridden (`{...profile, id: generateId(), created: now, modified: now}`). -/
def importProfile (profiles : List JVal) (parsed : Except String JVal)
    (newId now : String) : List JVal × Except String JVal :=
  match parsed with
  | .error e => (profiles, .error ("Failed to import profile: " ++ e))
  | .ok v =>
    if ¬ jsTruthyJ (getField v "name") ∨ ¬ jsTruthyJ (getField v "configs")
        ∨ ¬ isArrayJ (getField v "configs") then
      (profiles, .error "Failed to import profile: Invalid profile format")
    else
      let newProfile :=
        setField (setField (setField v "id" (.jstr newId)) "created" (.jstr now))
          "modified" (.jstr now)
      (profiles ++ [newProfile], .ok newProfile)

/-! ## Concrete sample data used by witnesses and counterexamples -/

/-- A stored profile with one write destined to fail in the apply scenarios. -/
def sampleProfile : ConfigProfile :=
  { id := "p1", name := "n", description := "d",
    configs := [⟨"k1", "v1", .localScope⟩, ⟨"k2", "v2", .globalScope⟩,
                ⟨"k3", "v3", .localScope⟩],
    created := "t0", modified := "t0" }

/-- A storage holding just `sampleProfile`, with no active profile. -/
def sampleStorage : ProfileStorage :=
  { profiles := [sampleProfile], activeProfile := none, lastModified := "t0" }

/-- A failure oracle rejecting exactly the write for key `k2`. -/
def failK2 : GitConfigItem → Option String :=
  fun c => if c.key = "k2" then some "boom" else none

/-- A profile all of whose configs are global-scoped. -/
def globalOnlyProfile : ConfigProfile :=
  { id := "g1", name := "n", description := "d",
    configs := [⟨"user.email", "a@b", .globalScope⟩],
    created := "t0", modified := "t0" }

/-- A storage holding just `globalOnlyProfile`. -/
def globalOnlyStorage : ProfileStorage :=
  { profiles := [globalOnlyProfile], activeProfile := none, lastModified := "t0" }

/-- An initially empty storage. -/
def emptyStorage : ProfileStorage :=
  { profiles := [], activeProfile := none, lastModified := "t0" }

/-- A backend whose local listing repeats the composite key `a:local` with two
different values, as `git config --list` does for multi-valued keys. -/
def dupBackend : Backend :=
  { localList := fun _ => some "a=1\na=2", globalList := some "" }

/-- A backend whose listing has pairwise-distinct composite keys. -/
def distinctBackend : Backend :=
  { localList := fun _ => some "a=1\nb=2", globalList := some "a=3" }

/-! ## Helper lemmas about the JS `Map` model -/

theorem mapGet_foldl (k : String) (init : Option String) (l : List (String × String)) :
    l.foldl (fun acc p => if p.1 = k then some p.2 else acc) init
      = match mapGet l k with
        | some v => some v
        | none => init := by
  induction l generalizing init with
  | nil => simp [mapGet]
  | cons p rest ih =>
    show List.foldl _ (if p.1 = k then some p.2 else init) rest = _
    rw [ih]
    have h2 : mapGet (p :: rest) k
        = match mapGet rest k with
          | some v => some v
          | none => if p.1 = k then some p.2 else none := by
      show List.foldl _ (if p.1 = k then some p.2 else none) rest = _
      rw [ih]
    rw [h2]
    cases mapGet rest k with
    | some v => simp
    | none => by_cases hp : p.1 = k <;> simp [hp]

theorem mapGet_cons (p : String × String) (l : List (String × String)) (k : String) :
    mapGet (p :: l) k
      = match mapGet l k with
        | some v => some v
        | none => if p.1 = k then some p.2 else none := by
  show List.foldl _ (if p.1 = k then some p.2 else none) l = _
  rw [mapGet_foldl]

theorem mapGet_eq_none (l : List (String × String)) (k : String)
    (h : ∀ p ∈ l, p.1 ≠ k) : mapGet l k = none := by
  induction l with
  | nil => rfl
  | cons p rest ih =>
    rw [mapGet_cons, ih (fun q hq => h q (List.mem_cons_of_mem p hq))]
    simp [h p (List.mem_cons_self p rest)]

theorem mapGet_configMap_isSome (l : List GitConfigItem) (c : GitConfigItem)
    (h : c ∈ l) : (mapGet (configMap l) (compositeKey c)).isSome := by
  induction l with
  | nil => cases h
  | cons d rest ih =>
    rw [show configMap (d :: rest) = (compositeKey d, d.value) :: configMap rest from rfl,
        mapGet_cons]
    rcases List.mem_cons.mp h with h1 | h2
    · subst h1
      cases hm : mapGet (configMap rest) (compositeKey c) <;> simp
    · have hs := ih h2
      cases hm : mapGet (configMap rest) (compositeKey c)
      · rw [hm] at hs; simp at hs
      · simp

theorem mapGet_configMap_nodup (l : List GitConfigItem)
    (hn : (l.map compositeKey).Nodup) (c : GitConfigItem) (h : c ∈ l) :
    mapGet (configMap l) (compositeKey c) = some c.value := by
  induction l with
  | nil => cases h
  | cons d rest ih =>
    rw [show configMap (d :: rest) = (compositeKey d, d.value) :: configMap rest from rfl,
        mapGet_cons]
    have hn2 : (∀ x ∈ rest, ¬ compositeKey x = compositeKey d)
        ∧ (List.map compositeKey rest).Nodup := by simpa using hn
    rcases List.mem_cons.mp h with h1 | h2
    · subst h1
      have hnot : ∀ p ∈ configMap rest, p.1 ≠ compositeKey c := by
        intro p hp heq
        rcases List.mem_map.mp hp with ⟨e, he, rfl⟩
        exact hn2.1 e he heq
      rw [mapGet_eq_none _ _ hnot]
      simp
    · rw [ih hn2.2 h2]

/-! ## Helper lemmas about the comparison loops -/

theorem classify_fst (cm : List (String × String)) (l : List GitConfigItem) :
    (classifyProfileConfigs cm l).1
      = l.filter (fun c => (mapGet cm (compositeKey c)).isNone) := by
  induction l with
  | nil => rfl
  | cons c rest ih =>
    simp only [classifyProfileConfigs]
    cases hm : mapGet cm (compositeKey c) with
    | none => simp [List.filter_cons, hm, ih]
    | some v =>
      by_cases hv : v = c.value
      · simp [List.filter_cons, hm, hv, ih]
      · simp [List.filter_cons, hm, hv, ih]

theorem classify_snd (cm : List (String × String)) (l : List GitConfigItem) :
    (classifyProfileConfigs cm l).2
      = l.filterMap (fun c =>
          match mapGet cm (compositeKey c) with
          | none => none
          | some v =>
            if v ≠ c.value then some ⟨c.key, c.scope, v, c.value⟩ else none) := by
  induction l with
  | nil => rfl
  | cons c rest ih =>
    simp only [classifyProfileConfigs]
    cases hm : mapGet cm (compositeKey c) with
    | none => simp [List.filterMap_cons, hm, ih]
    | some v =>
      by_cases hv : v = c.value
      · simp [List.filterMap_cons, hm, hv, ih]
      · simp [List.filterMap_cons, hm, hv, ih]

theorem removeLoop_eq (pm : List (String × String)) (l : List GitConfigItem) :
    removeLoop pm l = l.filter (fun c => !(mapHas pm (compositeKey c))) := by
  induction l with
  | nil => rfl
  | cons c rest ih =>
    simp only [removeLoop]
    cases hm : mapHas pm (compositeKey c) <;> simp [List.filter_cons, hm, ih]

theorem classify_eq_nil (cm : List (String × String)) (l : List GitConfigItem)
    (h : ∀ c ∈ l, mapGet cm (compositeKey c) = some c.value) :
    classifyProfileConfigs cm l = ([], []) := by
  induction l with
  | nil => rfl
  | cons c rest ih =>
    simp only [classifyProfileConfigs]
    rw [ih (fun d hd => h d (List.mem_cons_of_mem c hd)),
        h c (List.mem_cons_self c rest)]
    simp

theorem removeLoop_eq_nil (pm : List (String × String)) (l : List GitConfigItem)
    (h : ∀ c ∈ l, mapHas pm (compositeKey c) = true) :
    removeLoop pm l = [] := by
  induction l with
  | nil => rfl
  | cons c rest ih =>
    simp only [removeLoop]
    rw [h c (List.mem_cons_self c rest)]
    simp [ih (fun d hd => h d (List.mem_cons_of_mem c hd))]

/-! ## Helper lemmas about lookup, removal and the apply loop -/

theorem find?_append_of_none {α : Type} (p : α → Bool) (l1 l2 : List α)
    (h : ∀ a ∈ l1, p a = false) : (l1 ++ l2).find? p = l2.find? p := by
  induction l1 with
  | nil => rfl
  | cons a rest ih =>
    rw [List.cons_append, List.find?_cons, h a (List.mem_cons_self a rest)]
    exact ih (fun b hb => h b (List.mem_cons_of_mem a hb))

theorem removeFirstById_eq_none (l : List ConfigProfile) (id : String)
    (h : ∀ p ∈ l, p.id ≠ id) : removeFirstById l id = none := by
  induction l with
  | nil => rfl
  | cons p rest ih =>
    simp only [removeFirstById]
    rw [if_neg (h p (List.mem_cons_self p rest))]
    rw [ih (fun q hq => h q (List.mem_cons_of_mem p hq))]
    rfl

theorem removeFirstById_eq_some (l : List ConfigProfile) (id : String)
    (l' : List ConfigProfile) (h : removeFirstById l id = some l') :
    ∃ l1 p l2, l = l1 ++ p :: l2 ∧ p.id = id ∧ (∀ q ∈ l1, q.id ≠ id)
      ∧ l' = l1 ++ l2 := by
  induction l generalizing l' with
  | nil => cases h
  | cons p rest ih =>
    simp only [removeFirstById] at h
    by_cases hp : p.id = id
    · rw [if_pos hp] at h
      refine ⟨[], p, rest, rfl, hp, by simp, ?_⟩
      exact (Option.some.inj h).symm
    · rw [if_neg hp] at h
      cases hr : removeFirstById rest id with
      | none => rw [hr] at h; cases h
      | some m =>
        rw [hr] at h
        obtain ⟨l1, q, l2, hl, hq, hnot, hm⟩ := ih m hr
        refine ⟨p :: l1, q, l2, by rw [hl]; rfl, hq, ?_, ?_⟩
        · intro r hr2
          rcases List.mem_cons.mp hr2 with h1 | h2
          · exact h1 ▸ hp
          · exact hnot r h2
        · have := Option.some.inj h
          rw [← this, hm]
          rfl

theorem applyLoop_spec (failSet : GitConfigItem → Option String)
    (cs : List GitConfigItem) (st : List (String × String)) (errs : List String) :
    applyLoop failSet cs st errs =
      (cs.foldl (fun s c =>
          match failSet c with
          | some _ => s
          | none => bset s (compositeKey c) c.value) st,
       errs ++ cs.filterMap (fun c =>
          (failSet c).map (fun e => "Failed to set " ++ c.key ++ ": " ++ e))) := by
  induction cs generalizing st errs with
  | nil => simp [applyLoop]
  | cons c rest ih =>
    cases hf : failSet c with
    | some e =>
      simp only [applyLoop, hf]
      rw [ih]
      simp [hf, List.append_assoc]
    | none =>
      simp only [applyLoop, hf]
      rw [ih]
      simp [hf]

/-! ## Helper lemmas about the JSON object model -/

theorem getFieldList_setFieldList_same (fs : List (String × JVal)) (k : String)
    (val : JVal) : getFieldList (setFieldList fs k val) k = some val := by
  induction fs with
  | nil => simp [setFieldList, getFieldList]
  | cons p rest ih =>
    simp only [setFieldList]
    by_cases hp : p.1 = k
    · simp [getFieldList, hp]
    · simp [getFieldList, hp, ih]

theorem getFieldList_setFieldList_other (fs : List (String × JVal)) (k k' : String)
    (val : JVal) (h : k' ≠ k) :
    getFieldList (setFieldList fs k val) k' = getFieldList fs k' := by
  induction fs with
  | nil => simp [setFieldList, getFieldList, Ne.symm h]
  | cons p rest ih =>
    simp only [setFieldList]
    by_cases hp : p.1 = k
    · simp [getFieldList, hp, Ne.symm h]
    · simp [getFieldList, hp, ih]

theorem jobj_of_truthy_name (v : JVal) (h : jsTruthyJ (getField v "name") = true) :
    ∃ fs, v = JVal.jobj fs := by
  cases v with
  | jobj fields => exact ⟨fields, rfl⟩
  | jnull => simp [getField, jsTruthyJ] at h
  | jbool b => simp [getField, jsTruthyJ] at h
  | jnum n => simp [getField, jsTruthyJ] at h
  | jstr s => simp [getField, jsTruthyJ] at h
  | jarr items => simp [getField, jsTruthyJ] at h

/-! ## Claim C1 -/

/-- Claim C1: `compareProfiles` classifies each profile entry by its composite
`(key, scope)` identity against the current backend state: entries absent from
the current map go to `toAdd`; entries present with a different value go to
`toUpdate` carrying `oldValue` (current) and `newValue` (profile's); entries
present with an equal value appear in none of the three lists; and every
current-state entry whose composite key is absent from the profile map goes to
`toRemove`. -/
theorem c1_compare_classifies (profile : ConfigProfile)
    (currentConfigs : List GitConfigItem) :
    (compareProfileWithCurrent profile currentConfigs).toAdd
        = profile.configs.filter
            (fun c => (mapGet (configMap currentConfigs) (compositeKey c)).isNone)
    ∧ (compareProfileWithCurrent profile currentConfigs).toUpdate
        = profile.configs.filterMap (fun c =>
            match mapGet (configMap currentConfigs) (compositeKey c) with
            | none => none
            | some v =>
              if v ≠ c.value then some ⟨c.key, c.scope, v, c.value⟩ else none)
    ∧ (compareProfileWithCurrent profile currentConfigs).toRemove
        = currentConfigs.filter
            (fun c => !(mapHas (configMap profile.configs) (compositeKey c)))
    ∧ ∀ c ∈ profile.configs,
        mapGet (configMap currentConfigs) (compositeKey c) = some c.value →
          c ∉ (compareProfileWithCurrent profile currentConfigs).toAdd
          ∧ c ∉ (compareProfileWithCurrent profile currentConfigs).toRemove
          ∧ ∀ u ∈ (compareProfileWithCurrent profile currentConfigs).toUpdate,
              ¬ (u.key = c.key ∧ u.scope = c.scope ∧ u.newValue = c.value) := by
  have hAdd : (compareProfileWithCurrent profile currentConfigs).toAdd
      = profile.configs.filter
          (fun c => (mapGet (configMap currentConfigs) (compositeKey c)).isNone) :=
    classify_fst _ _
  have hUpd : (compareProfileWithCurrent profile currentConfigs).toUpdate
      = profile.configs.filterMap (fun c =>
          match mapGet (configMap currentConfigs) (compositeKey c) with
          | none => none
          | some v =>
            if v ≠ c.value then some ⟨c.key, c.scope, v, c.value⟩ else none) :=
    classify_snd _ _
  have hRem : (compareProfileWithCurrent profile currentConfigs).toRemove
      = currentConfigs.filter
          (fun c => !(mapHas (configMap profile.configs) (compositeKey c))) :=
    removeLoop_eq _ _
  refine ⟨hAdd, hUpd, hRem, ?_⟩
  intro c hc heq
  refine ⟨?_, ?_, ?_⟩
  · rw [hAdd]
    intro hmem
    have := (List.mem_filter.mp hmem).2
    rw [heq] at this
    simp at this
  · rw [hRem]
    intro hmem
    have h2 := (List.mem_filter.mp hmem).2
    have h3 := mapGet_configMap_isSome profile.configs c hc
    unfold mapHas at h2
    simp at h2
    rw [h2] at h3
    simp at h3
  · intro u hu hcon
    rw [hUpd] at hu
    rcases List.mem_filterMap.mp hu with ⟨c2, hc2, hfc2⟩
    cases hm : mapGet (configMap currentConfigs) (compositeKey c2) with
    | none => simp [hm] at hfc2
    | some v =>
      simp only [hm] at hfc2
      by_cases hv : v = c2.value
      · rw [if_neg (not_not_intro hv)] at hfc2; cases hfc2
      · rw [if_pos hv] at hfc2
        have hu2 := Option.some.inj hfc2
        have hkey : c2.key = c.key := by rw [← hu2] at hcon; exact hcon.1
        have hscope : c2.scope = c.scope := by rw [← hu2] at hcon; exact hcon.2.1
        have hnew : c2.value = c.value := by rw [← hu2] at hcon; exact hcon.2.2
        have hck : compositeKey c2 = compositeKey c := by
          unfold compositeKey; rw [hkey, hscope]
        rw [hck, heq] at hm
        exact hv ((Option.some.inj hm).symm.trans hnew.symm)

/-- Witness for C1 at a concrete profile and backend state: the single entry
`u=1 (local)` equal on both sides lands in none of the lists. -/
theorem c1_compare_classifies_witness :
    (⟨"u", "1", GitScope.localScope⟩ : GitConfigItem) ∉
      (compareProfileWithCurrent
        { id := "p", name := "n", description := "d",
          configs := [⟨"u", "1", GitScope.localScope⟩],
          created := "t", modified := "t" }
        [⟨"u", "1", GitScope.localScope⟩]).toAdd :=
  ((c1_compare_classifies
      { id := "p", name := "n", description := "d",
        configs := [⟨"u", "1", GitScope.localScope⟩],
        created := "t", modified := "t" }
      [⟨"u", "1", GitScope.localScope⟩]).2.2.2
    ⟨"u", "1", GitScope.localScope⟩ (by decide) rfl).1

/-! ## Claim C2 -/

/-- Claim C2 counterexample: the round-trip snapshot property fails on a
backend state as such: when `git config --local --list` reports the composite
key `a:local` twice with different values (a multi-valued key),
`createProfileFromCurrent` followed immediately by `compareProfiles` against
the unchanged backend reports a spurious update `a: 2 -> 1`, not the empty
comparison the claim requires. -/
theorem c2_roundtrip_counterexample :
    compareProfiles
        (createProfileFromCurrent emptyStorage "n" "d" none "id1" "t1"
          (some "/r") dupBackend).1 "id1" none (some "/r") dupBackend
      = .ok ⟨[], [⟨"a", GitScope.localScope, "2", "1"⟩], []⟩
    ∧ compareProfiles
        (createProfileFromCurrent emptyStorage "n" "d" none "id1" "t1"
          (some "/r") dupBackend).1 "id1" none (some "/r") dupBackend
      ≠ .ok ⟨[], [], []⟩ := by
  have hval : compareProfiles
      (createProfileFromCurrent emptyStorage "n" "d" none "id1" "t1"
        (some "/r") dupBackend).1 "id1" none (some "/r") dupBackend
      = .ok ⟨[], [⟨"a", GitScope.localScope, "2", "1"⟩], []⟩ := rfl
  refine ⟨hval, ?_⟩
  intro h
  exact absurd (Except.ok.inj (hval.symm.trans h)) (by decide)

/-- Claim C2 (amended): for any backend state whose listed current
configuration carries pairwise-distinct composite `(key, scope)` identities
(and a freshly minted profile id), `createProfileFromCurrent` followed
immediately by `compareProfiles` against the same unmodified backend yields
the empty comparison. Duplicate composite keys in the listing (git
multi-valued keys) break the property, as the counterexample shows. -/
theorem compare_self_of_nodup (p : ConfigProfile) (cur : List GitConfigItem)
    (hpc : p.configs = cur) (hnodup : (cur.map compositeKey).Nodup) :
    compareProfileWithCurrent p cur = ⟨[], [], []⟩ := by
  show ProfileComparison.mk
      (classifyProfileConfigs (configMap cur) p.configs).1
      (classifyProfileConfigs (configMap cur) p.configs).2
      (removeLoop (configMap p.configs) cur)
    = ⟨[], [], []⟩
  rw [hpc]
  rw [classify_eq_nil (configMap cur) cur
    (fun c hc => mapGet_configMap_nodup cur hnodup c hc)]
  rw [removeLoop_eq_nil (configMap cur) cur
    (fun c hc => mapGet_configMap_isSome cur c hc)]

/-- Claim C2 (amended): for any backend state whose listed current
configuration carries pairwise-distinct composite `(key, scope)` identities
(and a freshly minted profile id), `createProfileFromCurrent` followed
immediately by `compareProfiles` against the same unmodified backend yields
the empty comparison. Duplicate composite keys in the listing (git
multi-valued keys) break the property, as the counterexample shows. -/
theorem c2_roundtrip_amended (storage : ProfileStorage) (name description : String)
    (tags : Option (List String)) (newId now : String)
    (ambientRoot : Option String) (b : Backend)
    (hfresh : ∀ p ∈ storage.profiles, p.id ≠ newId)
    (hnodup : ((getCurrentConfigs none ambientRoot b).map compositeKey).Nodup) :
    compareProfiles
        (createProfileFromCurrent storage name description tags newId now
          ambientRoot b).1 newId none ambientRoot b
      = .ok ⟨[], [], []⟩ := by
  have hcur : (createProfileFromCurrent storage name description tags newId now
      ambientRoot b).1.profiles
        = storage.profiles
          ++ [(createProfileFromCurrent storage name description tags newId now
                ambientRoot b).2] := rfl
  have hfind : getProfile
      (createProfileFromCurrent storage name description tags newId now
        ambientRoot b).1 newId
      = some (createProfileFromCurrent storage name description tags newId now
          ambientRoot b).2 := by
    unfold getProfile
    rw [hcur, find?_append_of_none _ _ _
      (fun p hp => by simpa using hfresh p hp)]
    simp [createProfileFromCurrent, createProfile]
  unfold compareProfiles
  rw [hfind]
  show Except.ok (compareProfileWithCurrent
      (createProfileFromCurrent storage name description tags newId now
        ambientRoot b).2 (getCurrentConfigs none ambientRoot b)) = _
  rw [compare_self_of_nodup
    (createProfileFromCurrent storage name description tags newId now
      ambientRoot b).2 (getCurrentConfigs none ambientRoot b) rfl hnodup]

/-- Witness for the amended C2 on a concrete backend whose three listed
entries have distinct composite keys (including the same key `a` in both
scopes). -/
theorem c2_roundtrip_amended_witness :
    compareProfiles
        (createProfileFromCurrent emptyStorage "n" "d" none "id1" "t1"
          (some "/r") distinctBackend).1 "id1" none (some "/r") distinctBackend
      = .ok ⟨[], [], []⟩ :=
  c2_roundtrip_amended emptyStorage "n" "d" none "id1" "t1" (some "/r")
    distinctBackend (by simp [emptyStorage]) (by decide)

/-! ## Claim C3 -/

/-- Claim C3: during `applyProfile` every config item is attempted against the
backend regardless of earlier per-item failures (the final backend state is
the fold of all successful writes over the whole list, with failed writes
skipped but later writes still applied); the call returns success iff every
write succeeded; and when any write failed it fails with the joined per-key
failure messages while the successful writes remain in effect (no rollback:
the error outcome carries the same folded backend state). -/
theorem c3_apply_best_effort (storage : ProfileStorage) (id : String)
    (wsRoot ambientRoot : Option String) (failSet : GitConfigItem → Option String)
    (st : List (String × String)) (now : String) (profile : ConfigProfile)
    (root : String) (hfind : getProfile storage id = some profile)
    (hroot : jsOrStr wsRoot ambientRoot = some root) (hr : root ≠ "") :
    (applyProfile storage id wsRoot ambientRoot failSet st now).1
        = profile.configs.foldl (fun s c =>
            match failSet c with
            | some _ => s
            | none => bset s (compositeKey c) c.value) st
    ∧ ((applyProfile storage id wsRoot ambientRoot failSet st now).2.2 = .ok ()
        ↔ ∀ c ∈ profile.configs, failSet c = none)
    ∧ ((∃ c ∈ profile.configs, (failSet c).isSome) →
        (applyProfile storage id wsRoot ambientRoot failSet st now).2.2
          = .error ("Some configurations failed:\n"
              ++ joinLines (profile.configs.filterMap (fun c =>
                  (failSet c).map
                    (fun e => "Failed to set " ++ c.key ++ ": " ++ e))))) := by
  have herrs : (applyLoop failSet profile.configs st []).2
      = profile.configs.filterMap (fun c =>
          (failSet c).map (fun e => "Failed to set " ++ c.key ++ ": " ++ e)) := by
    rw [applyLoop_spec]
    simp
  have hst : (applyLoop failSet profile.configs st []).1
      = profile.configs.foldl (fun s c =>
          match failSet c with
          | some _ => s
          | none => bset s (compositeKey c) c.value) st := by
    rw [applyLoop_spec]
  have hnil : ((applyLoop failSet profile.configs st []).2 = []
      ↔ ∀ c ∈ profile.configs, failSet c = none) := by
    rw [herrs, List.filterMap_eq_nil_iff]
    constructor
    · intro h c hc
      have := h c hc
      simpa using this
    · intro h c hc
      simp [h c hc]
  unfold applyProfile
  simp only [hfind, hroot]
  rw [if_neg (show ¬ root = "" from hr)]
  by_cases hcase : (applyLoop failSet profile.configs st []).2 = []
  · rw [if_neg (not_not_intro hcase)]
    refine ⟨hst, ?_, ?_⟩
    · simpa using hnil.mp hcase
    · intro hex
      rcases hex with ⟨c, hc, hsome⟩
      have := hnil.mp hcase c hc
      rw [this] at hsome
      cases hsome
  · rw [if_pos hcase]
    refine ⟨hst, ?_, ?_⟩
    · constructor
      · intro h; cases h
      · intro hall
        exact absurd (hnil.mpr hall) hcase
    · intro _
      rw [herrs]

/-- Witness for C3: with a three-item profile whose `k2` write is rejected,
the call raises the aggregate error naming exactly the `k2` failure. -/
theorem c3_apply_best_effort_witness :
    (applyProfile sampleStorage "p1" (some "/r") none failK2 [] "t9").2.2
      = .error ("Some configurations failed:\n"
          ++ joinLines (sampleProfile.configs.filterMap (fun c =>
              (failK2 c).map (fun e => "Failed to set " ++ c.key ++ ": " ++ e)))) :=
  (c3_apply_best_effort sampleStorage "p1" (some "/r") none failK2 [] "t9"
      sampleProfile "/r" rfl rfl (by decide)).2.2
    ⟨⟨"k2", "v2", GitScope.globalScope⟩, by decide, by decide⟩

/-! ## Claim C4 -/

/-- Claim C4 counterexample: the claim that `activeProfile` is set and
persisted even on partial failure is false. With the `k2` write failing, the
loop's aggregate error is thrown before the pointer update: the call errors
and the returned storage still has `activeProfile = none`, not `some "p1"`. -/
theorem c4_active_pointer_counterexample :
    (applyProfile sampleStorage "p1" (some "/r") none failK2 [] "t9").2.2
      = .error "Some configurations failed:\nFailed to set k2: boom"
    ∧ (applyProfile sampleStorage "p1" (some "/r") none failK2 [] "t9").2.1
      = sampleStorage
    ∧ (applyProfile sampleStorage "p1" (some "/r") none failK2 [] "t9").2.1.activeProfile
      = none := ⟨rfl, rfl, rfl⟩

/-- Claim C4 (amended): after `applyProfile(id)` runs to the end of its write
loop, the store's `activeProfile` pointer is set to `id` and persisted only on
full success; when one or more individual writes failed the aggregated error
is thrown first and the storage (including the pointer) is left unchanged. -/
theorem c4_active_pointer_amended (storage : ProfileStorage) (id : String)
    (wsRoot ambientRoot : Option String) (failSet : GitConfigItem → Option String)
    (st : List (String × String)) (now : String) (profile : ConfigProfile)
    (root : String) (hfind : getProfile storage id = some profile)
    (hroot : jsOrStr wsRoot ambientRoot = some root) (hr : root ≠ "") :
    ((∀ c ∈ profile.configs, failSet c = none) →
      (applyProfile storage id wsRoot ambientRoot failSet st now).2.1
        = { profiles := storage.profiles, activeProfile := some id,
            lastModified := now })
    ∧ ((∃ c ∈ profile.configs, (failSet c).isSome) →
      (applyProfile storage id wsRoot ambientRoot failSet st now).2.1 = storage) := by
  have herrs : (applyLoop failSet profile.configs st []).2
      = profile.configs.filterMap (fun c =>
          (failSet c).map (fun e => "Failed to set " ++ c.key ++ ": " ++ e)) := by
    rw [applyLoop_spec]
    simp
  unfold applyProfile
  simp only [hfind, hroot]
  rw [if_neg (show ¬ root = "" from hr)]
  constructor
  · intro hall
    have hnil : (applyLoop failSet profile.configs st []).2 = [] := by
      rw [herrs, List.filterMap_eq_nil_iff]
      intro c hc
      simp [hall c hc]
    rw [if_neg (not_not_intro hnil)]
  · intro hex
    rcases hex with ⟨c, hc, hsome⟩
    have hne : (applyLoop failSet profile.configs st []).2 ≠ [] := by
      rw [herrs]
      intro hcontra
      rw [List.filterMap_eq_nil_iff] at hcontra
      have := hcontra c hc
      rw [Option.map_eq_none'] at this
      rw [this] at hsome
      cases hsome
    rw [if_pos hne]

/-- Witness for the amended C4: with no failing writes the pointer is set to
`p1` and persisted; with the `k2` write failing the storage is unchanged. -/
theorem c4_active_pointer_amended_witness :
    (applyProfile sampleStorage "p1" (some "/r") none (fun _ => none) [] "t9").2.1
      = { profiles := sampleStorage.profiles, activeProfile := some "p1",
          lastModified := "t9" } :=
  (c4_active_pointer_amended sampleStorage "p1" (some "/r") none (fun _ => none)
      [] "t9" sampleProfile "/r" rfl rfl (by decide)).1 (fun _ _ => rfl)

/-! ## Claim C5 -/

/-- Claim C5 counterexample: a profile whose configs are all global-scoped
does not apply successfully when no project root is resolvable — the code
throws `No workspace folder found` before looking at any scope, leaving
storage and backend untouched even though every write would have succeeded. -/
theorem c5_root_required_counterexample :
    (∀ c ∈ globalOnlyProfile.configs, c.scope = GitScope.globalScope)
    ∧ applyProfile globalOnlyStorage "g1" none none (fun _ => none) [] "t9"
        = ([], globalOnlyStorage, .error "No workspace folder found") :=
  ⟨by decide, rfl⟩

/-- Claim C5 (amended): `applyProfile` fails with `No workspace folder found`
whenever the resolved root is falsy (no argument and no ambient root, or an
empty-string root), regardless of the scopes of the profile's configs;
global-only profiles are not exempt. Storage and backend are left unchanged. -/
theorem c5_root_required_amended (storage : ProfileStorage) (id : String)
    (wsRoot ambientRoot : Option String) (failSet : GitConfigItem → Option String)
    (st : List (String × String)) (now : String) (profile : ConfigProfile)
    (hfind : getProfile storage id = some profile)
    (hroot : truthyOpt (jsOrStr wsRoot ambientRoot) = false) :
    applyProfile storage id wsRoot ambientRoot failSet st now
      = (st, storage, .error "No workspace folder found") := by
  unfold applyProfile
  simp only [hfind]
  cases hj : jsOrStr wsRoot ambientRoot with
  | none => rfl
  | some root2 =>
    rw [hj] at hroot
    unfold truthyOpt at hroot
    simp at hroot
    subst hroot
    rfl

/-- Witness for the amended C5 at the all-global profile with no root. -/
theorem c5_root_required_amended_witness :
    applyProfile globalOnlyStorage "g1" none none (fun _ => none) [] "t9"
      = ([], globalOnlyStorage, .error "No workspace folder found") :=
  c5_root_required_amended globalOnlyStorage "g1" none none (fun _ => none)
    [] "t9" globalOnlyProfile rfl rfl

/-! ## Claim C6 -/

/-- Claim C6: `deleteProfile(id)` fails with NotFound when `id` does not
resolve; otherwise it removes the first profile with that id from the list
and, when the deleted profile was the store's active profile, clears the
active pointer so that `getActiveProfile()` returns `none`. -/
theorem c6_delete_clears_active (storage : ProfileStorage) (id now : String) :
    ((∀ p ∈ storage.profiles, p.id ≠ id) →
      deleteProfile storage id now = .error ("Profile not found: " ++ id))
    ∧ (∀ st', deleteProfile storage id now = .ok st' →
        (∃ l1 p l2, storage.profiles = l1 ++ p :: l2 ∧ p.id = id
          ∧ (∀ q ∈ l1, q.id ≠ id) ∧ st'.profiles = l1 ++ l2)
        ∧ (storage.activeProfile = some id →
            st'.activeProfile = none ∧ getActiveProfile st' = none)) := by
  constructor
  · intro hnone
    unfold deleteProfile
    rw [removeFirstById_eq_none storage.profiles id hnone]
  · intro st' hok
    unfold deleteProfile at hok
    cases hrem : removeFirstById storage.profiles id with
    | none => rw [hrem] at hok; cases hok
    | some profiles' =>
      rw [hrem] at hok
      have hst := Option.some.inj (by simpa using hok)
      obtain ⟨l1, p, l2, hl, hp, hnot, hl'⟩ :=
        removeFirstById_eq_some storage.profiles id profiles' hrem
      constructor
      · exact ⟨l1, p, l2, hl, hp, hnot, by rw [← hst, hl']⟩
      · intro hactive
        have hact : st'.activeProfile = none := by
          rw [← hst]
          simp [hactive]
        refine ⟨hact, ?_⟩
        unfold getActiveProfile
        rw [hact]

/-- Witness for C6: deleting the profile the active pointer designates leaves
a store whose `getActiveProfile` is `none`. -/
theorem c6_delete_clears_active_witness :
    getActiveProfile
      { profiles := [], activeProfile := none, lastModified := "t9" } = none :=
  (((c6_delete_clears_active
      { profiles := [sampleProfile], activeProfile := some "p1",
        lastModified := "t0" } "p1" "t9").2
    { profiles := [], activeProfile := none, lastModified := "t9" } rfl).2 rfl).2

/-! ## Claim C7 -/

/-- Claim C7: `updateProfile(id, partialFields)` fails with NotFound when the
id does not resolve; otherwise it shallow-merges the supplied fields
(including an optional full replacement of `configs`) into the stored record,
leaves `id` and `created` unchanged, and stamps `modified` to the current
time. -/
theorem c7_update_preserves_identity (storage : ProfileStorage) (id : String)
    (u : ProfileUpdates) (now : String) :
    ((∀ p ∈ storage.profiles, p.id ≠ id) →
      updateProfile storage id u now = .error ("Profile not found: " ++ id))
    ∧ (∀ p, getProfile storage id = some p →
        updateProfile storage id u now
          = .ok ({ profiles := setFirst id (applyUpdates p u now) storage.profiles,
                   activeProfile := storage.activeProfile, lastModified := now },
                 applyUpdates p u now)
        ∧ (applyUpdates p u now).id = p.id
        ∧ (applyUpdates p u now).created = p.created
        ∧ (applyUpdates p u now).modified = now
        ∧ (applyUpdates p u now).name = u.name.getD p.name
        ∧ (applyUpdates p u now).description = u.description.getD p.description
        ∧ (applyUpdates p u now).configs = u.configs.getD p.configs) := by
  constructor
  · intro hnone
    unfold updateProfile
    have hfind : getProfile storage id = none := by
      unfold getProfile
      rw [List.find?_eq_none]
      intro p hp
      simpa using hnone p hp
    rw [hfind]
  · intro p hp
    refine ⟨?_, rfl, rfl, rfl, rfl, rfl, rfl⟩
    unfold updateProfile
    rw [hp]

/-- Witness for C7: renaming `p1` keeps its id and creation stamp and moves
`modified` to the update time. -/
theorem c7_update_preserves_identity_witness :
    (applyUpdates sampleProfile { name := some "X" } "t9").id = sampleProfile.id
    ∧ (applyUpdates sampleProfile { name := some "X" } "t9").created
        = sampleProfile.created
    ∧ (applyUpdates sampleProfile { name := some "X" } "t9").modified = "t9" :=
  ⟨((c7_update_preserves_identity sampleStorage "p1" { name := some "X" }
      "t9").2 sampleProfile rfl).2.1,
   ((c7_update_preserves_identity sampleStorage "p1" { name := some "X" }
      "t9").2 sampleProfile rfl).2.2.1,
   ((c7_update_preserves_identity sampleStorage "p1" { name := some "X" }
      "t9").2 sampleProfile rfl).2.2.2.1⟩

/-! ## Claim C8 -/

/-- Claim C8: `importProfile` fails with InvalidFormat on malformed JSON, a
missing (falsy) `name`, or a `configs` field that is not an array, leaving the
profile store unmodified in every failure case; on success it appends a record
whose `id` is the newly minted id (the id carried in the payload is
discarded) and whose `created` and `modified` fields are stamped to the time
of the import. -/
theorem c8_import_validation (profiles : List JVal) (parsed : Except String JVal)
    (newId now : String) :
    (∀ e, parsed = .error e →
      importProfile profiles parsed newId now
        = (profiles, .error ("Failed to import profile: " ++ e)))
    ∧ (∀ v, parsed = .ok v →
        (jsTruthyJ (getField v "name") = false
          ∨ isArrayJ (getField v "configs") = false) →
        importProfile profiles parsed newId now
          = (profiles, .error "Failed to import profile: Invalid profile format"))
    ∧ (∀ v, parsed = .ok v → jsTruthyJ (getField v "name") = true →
        isArrayJ (getField v "configs") = true →
        importProfile profiles parsed newId now
          = (profiles ++ [setField (setField (setField v "id" (.jstr newId))
                "created" (.jstr now)) "modified" (.jstr now)],
             .ok (setField (setField (setField v "id" (.jstr newId))
                "created" (.jstr now)) "modified" (.jstr now)))
        ∧ getField (setField (setField (setField v "id" (.jstr newId))
              "created" (.jstr now)) "modified" (.jstr now)) "id"
            = some (.jstr newId)
        ∧ getField (setField (setField (setField v "id" (.jstr newId))
              "created" (.jstr now)) "modified" (.jstr now)) "created"
            = some (.jstr now)
        ∧ getField (setField (setField (setField v "id" (.jstr newId))
              "created" (.jstr now)) "modified" (.jstr now)) "modified"
            = some (.jstr now)) := by
  refine ⟨?_, ?_, ?_⟩
  · intro e he
    subst he
    rfl
  · intro v hv hbad
    subst hv
    have hcond : ¬ jsTruthyJ (getField v "name") = true
        ∨ ¬ jsTruthyJ (getField v "configs") = true
        ∨ ¬ isArrayJ (getField v "configs") = true := by
      rcases hbad with h1 | h2
      · exact Or.inl (by simp [h1])
      · exact Or.inr (Or.inr (by simp [h2]))
    simp only [importProfile]
    rw [if_pos hcond]
  · intro v hv hname hconfigs
    subst hv
    have htruthy : jsTruthyJ (getField v "configs") = true := by
      cases hg : getField v "configs" with
      | none => simp_all [isArrayJ]
      | some w => cases w <;> simp_all [isArrayJ, jsTruthyJ]
    have hcond2 : ¬ (¬ jsTruthyJ (getField v "name") = true
        ∨ ¬ jsTruthyJ (getField v "configs") = true
        ∨ ¬ isArrayJ (getField v "configs") = true) := by
      push_neg
      exact ⟨hname, htruthy, hconfigs⟩
    have happ : importProfile profiles (.ok v) newId now
        = (profiles ++ [setField (setField (setField v "id" (.jstr newId))
              "created" (.jstr now)) "modified" (.jstr now)],
           .ok (setField (setField (setField v "id" (.jstr newId))
              "created" (.jstr now)) "modified" (.jstr now))) := by
      simp only [importProfile]
      rw [if_neg hcond2]
    obtain ⟨fs, hfs⟩ := jobj_of_truthy_name v hname
    subst hfs
    refine ⟨happ, ?_, ?_, ?_⟩
    · show getFieldList (setFieldList (setFieldList (setFieldList fs "id"
          (.jstr newId)) "created" (.jstr now)) "modified" (.jstr now)) "id"
        = some (.jstr newId)
      rw [getFieldList_setFieldList_other _ _ _ _ (by decide),
          getFieldList_setFieldList_other _ _ _ _ (by decide),
          getFieldList_setFieldList_same]
    · show getFieldList (setFieldList (setFieldList (setFieldList fs "id"
          (.jstr newId)) "created" (.jstr now)) "modified" (.jstr now)) "created"
        = some (.jstr now)
      rw [getFieldList_setFieldList_other _ _ _ _ (by decide),
          getFieldList_setFieldList_same]
    · show getFieldList (setFieldList (setFieldList (setFieldList fs "id"
          (.jstr newId)) "created" (.jstr now)) "modified" (.jstr now)) "modified"
        = some (.jstr now)
      rw [getFieldList_setFieldList_same]

/-- Witness for C8: importing a payload that carries its own id appends a
record whose id is the newly minted one. -/
theorem c8_import_validation_witness :
    getField (setField (setField (setField
        (JVal.jobj [("id", .jstr "old"), ("name", .jstr "N"), ("configs", .jarr [])])
        "id" (.jstr "fresh")) "created" (.jstr "t9")) "modified" (.jstr "t9")) "id"
      = some (.jstr "fresh") :=
  ((c8_import_validation []
      (.ok (.jobj [("id", .jstr "old"), ("name", .jstr "N"), ("configs", .jarr [])]))
      "fresh" "t9").2.2
    (.jobj [("id", .jstr "old"), ("name", .jstr "N"), ("configs", .jarr [])])
    rfl rfl rfl).2.1

/-! ## Claim C9 -/

/-- Claim C9: when no `workspaceRoot` argument is supplied and no ambient
workspace root is resolvable (the resolved root is falsy), `getCurrentConfigs`
returns the empty list for every backend — in particular it never returns
global-scope entries, even though the global listing does not depend on a
project root. -/
theorem c9_no_root_no_configs (wsRoot ambientRoot : Option String)
    (h : truthyOpt (jsOrStr wsRoot ambientRoot) = false) (b : Backend) :
    getCurrentConfigs wsRoot ambientRoot b = [] := by
  unfold getCurrentConfigs
  cases hj : jsOrStr wsRoot ambientRoot with
  | none => rfl
  | some root =>
    rw [hj] at h
    unfold truthyOpt at h
    simp at h
    subst h
    rfl

/-- Witness for C9: with no root, a backend that would list both a local and
a global entry still yields no configs at all. -/
theorem c9_no_root_no_configs_witness :
    getCurrentConfigs none none
      { localList := fun _ => some "x=1", globalList := some "y=2" } = [] :=
  c9_no_root_no_configs none none rfl
    { localList := fun _ => some "x=1", globalList := some "y=2" }

/-! ## Claim C10 -/

/-- Claim C10: `importProfile` rejects as InvalidFormat any payload whose
`name` field is present but equal to the empty string (the empty string is
falsy in the `!profile.name` check), leaving the store unmodified, even though
such a payload is well-formed JSON carrying both required fields. -/
theorem c10_import_rejects_empty_name (profiles : List JVal) (v : JVal)
    (newId now : String) (h : getField v "name" = some (.jstr "")) :
    importProfile profiles (.ok v) newId now
      = (profiles, .error "Failed to import profile: Invalid profile format") := by
  simp only [importProfile]
  rw [if_pos (Or.inl (by simp [h, jsTruthyJ]))]

/-- Witness for C10 at a payload with an empty name and a well-formed configs
array. -/
theorem c10_import_rejects_empty_name_witness :
    importProfile []
        (.ok (.jobj [("name", .jstr ""), ("configs", .jarr [])])) "i1" "t9"
      = ([], .error "Failed to import profile: Invalid profile format") :=
  c10_import_rejects_empty_name [] (.jobj [("name", .jstr ""), ("configs", .jarr [])])
    "i1" "t9" rfl

end RepoRig
